import Mathlib

/-!
Verification of the RuoYi-Rust tiered caching engine
(`ruoyi-framework/src/cache/`): a shallow embedding of the local cache
backend (`local_cache.rs`), the Redis-backed remote tier
(`redis_cache.rs`, against the documented semantics of the Redis
commands it issues), the multi-level composition
(`multi_level_cache.rs`), and the relevant slice of the global registry
(`global_cache.rs`), together with theorems settling the specified
behavioural properties.

Conventions of the embedding:
* Serialized payloads (`Vec<u8>` holding JSON text in the source) are
  modelled as `String`.
* Each backend's store is an association list with insert-overwrite
  semantics; TTL parameters are carried where the source carries them
  but, exactly as in the source's local tier (moka global TTL), they do
  not affect the modelled store contents.
* Fallible operations return `Except CacheError`; a Rust panic is
  modelled as `Option.none` (only `LocalCache.keys` can panic, through
  `Regex::new(pattern).unwrap()`).
* Value (de)serialization is parameterised by caller-supplied
  `enc : α → Option String` / `dec : String → Option α` standing for
  `serde_json::to_vec` / `from_slice` at the generic boundary.
-/

namespace RuoYi

/-- Error taxonomy, from `ruoyi-framework/src/cache/error.rs`.
`From<serde_json::Error>` maps to `serialization`; `From<redis::RedisError>`
maps to `redis`. -/
inductive CacheError where
  | redis (msg : String)
  | serialization (msg : String)
  | deserialization (msg : String)
  | connection (msg : String)
  | configuration (msg : String)
  | other (msg : String)
deriving Repr, DecidableEq

/-- Alias of `CacheResult<T>` from `error.rs`. -/
abbrev CacheResult (α : Type) := Except CacheError α

/-! ### Association-list stores

Model of the key-value maps used by the backends (moka cache and
`DashMap` on the local side, the Redis keyspace on the remote side).
Only lookup/insert/remove behaviour is relevant to the claims. -/

/-- Lookup in an association list. -/
def alLookup {β : Type} : List (String × β) → String → Option β
  | [], _ => none
  | (k, v) :: rest, key => if k = key then some v else alLookup rest key

/-- Remove a key from an association list. -/
def alErase {β : Type} : List (String × β) → String → List (String × β)
  | [], _ => []
  | (k, v) :: rest, key => if k = key then alErase rest key else (k, v) :: alErase rest key

/-- Insert with overwrite semantics. -/
def alInsert {β : Type} (m : List (String × β)) (key : String) (v : β) :
    List (String × β) :=
  (key, v) :: alErase m key

/-- Key membership. -/
def alContains {β : Type} (m : List (String × β)) (key : String) : Bool :=
  (alLookup m key).isSome

/-! ### Decimal integer rendering and parsing

The local backend stores counters as `i64::to_string` bytes and parses
them back with `str::parse::<i64>` (`local_cache.rs:167-197`); the
remote tier's `INCR`/`DECR` parse stored values with Redis's integer
parser. -/

/-- Decimal digit character for `d < 10`. -/
def decDigitChar (d : Nat) : Char := Char.ofNat (48 + d)

/-- Decimal rendering of a natural number, most significant digit first
(the digit sequence produced by Rust's integer formatting). -/
def natToDecimal (n : Nat) : List Char :=
  if _h : n < 10 then [decDigitChar n]
  else natToDecimal (n / 10) ++ [decDigitChar (n % 10)]
decreasing_by
  exact Nat.div_lt_self (by omega) (by omega)

/-- Model of `i64::to_string`: decimal rendering with a leading minus for
negative values. -/
def intToString (n : Int) : String :=
  if n < 0 then String.mk ('-' :: natToDecimal (-n).toNat)
  else String.mk (natToDecimal n.toNat)

/-- Accumulate decimal digits left to right, as done by an integer
parser scanning the byte string. -/
def decStep (a : Nat) (c : Char) : Nat := a * 10 + (c.toNat - 48)

/-- Parse an all-digit, non-empty character list as a natural number. -/
def digitsToNat? (cs : List Char) : Option Nat :=
  if cs = [] then none
  else if cs.all Char.isDigit then some (cs.foldl decStep 0)
  else none

/-- Largest `i64` value. -/
def i64MaxNat : Nat := 2 ^ 63 - 1

/-- Magnitude bound for negative `i64` values. -/
def i64MinMagNat : Nat := 2 ^ 63

/-- Signed 64-bit decimal parser: an optional sign followed by one or
more digits, rejecting out-of-range magnitudes. With `allowPlus := true`
this is Rust's `str::parse::<i64>` (used by `LocalCache::incr`/`decr`);
with `allowPlus := false` it is the sign handling of Redis's `string2ll`
(used by `INCR`/`DECR`), restricted to inputs without redundant leading
zeros — the only integer payloads this system ever stores are
`i64::to_string` renderings, which have none. -/
def parseI64Core (allowPlus : Bool) (cs : List Char) : Option Int :=
  match cs with
  | [] => none
  | c :: rest =>
    if c = '-' then
      match digitsToNat? rest with
      | some m => if m ≤ i64MinMagNat then some (-(m : Int)) else none
      | none => none
    else if allowPlus && c = '+' then
      match digitsToNat? rest with
      | some m => if m ≤ i64MaxNat then some ((m : Int)) else none
      | none => none
    else
      match digitsToNat? (c :: rest) with
      | some m => if m ≤ i64MaxNat then some ((m : Int)) else none
      | none => none

/-- Rust's `str::parse::<i64>` on the stored byte string
(`String::from_utf8_lossy` is the identity on the valid-UTF-8 payloads
this system stores). -/
def parseI64 (s : String) : Option Int := parseI64Core true s.data

/-- Redis's integer parse of a stored value, as exercised by
`INCR`/`DECR`. -/
def redisParseI64 (s : String) : Option Int := parseI64Core false s.data

/-- Two's-complement wrap into the `i64` range, the result of the
source's `i64` addition/subtraction in release builds (`current + 1`,
`current - 1` in local_cache.rs:172, 188). A debug build panics at the
same boundary instead; either way, past the boundary the source never
yields the unbounded mathematical result. -/
def wrapI64 (n : Int) : Int := (n + 2 ^ 63) % 2 ^ 64 - 2 ^ 63

/-! ### LocalCache (`ruoyi-framework/src/cache/local_cache.rs`)

State of a `LocalCache` instance: the moka plain-entry cache (key →
serialized bytes) and the nested `DashMap` hash cache (key → field →
serialized bytes). The moka global TTL and capacity bound govern entry
expiry/eviction over time, not the value stored by any single
operation, so they do not appear in the per-operation transition
functions. -/
structure LocalState where
  cache : List (String × String)
  hash_cache : List (String × List (String × String))
deriving Repr, DecidableEq

/-- The empty local cache, as built by `LocalCache::new`. -/
def LocalState.empty : LocalState := ⟨[], []⟩

namespace LocalCache

/-- Model of `LocalCache::set_ex` (local_cache.rs:114-125): serialize, insert;
the per-call TTL is accepted but ignored (moka only supports the global
TTL, as the source comment documents). -/
def set_ex {α : Type} (enc : α → Option String) (st : LocalState) (key : String)
    (v : α) (_ttl : Nat) : CacheResult LocalState :=
  match enc v with
  | none => .error (.serialization "JSON序列化失败")
  | some bytes => .ok { st with cache := alInsert st.cache key bytes }

/-- Model of `LocalCache::get` (local_cache.rs:127-134). A deserialization
failure propagates through `From<serde_json::Error>`, i.e. as a
`serialization` error. -/
def get {α : Type} (dec : String → Option α) (st : LocalState) (key : String) :
    CacheResult (Option α) :=
  match alLookup st.cache key with
  | some data =>
    match dec data with
    | some v => .ok (some v)
    | none => .error (.serialization "JSON反序列化失败")
  | none => .ok none

/-- Model of `LocalCache::exists` (local_cache.rs:154-156): present in the plain
cache or in the hash cache. -/
def existsKey (st : LocalState) (key : String) : CacheResult Bool :=
  .ok ((alLookup st.cache key).isSome || alContains st.hash_cache key)

/-- Model of `LocalCache::expire` (local_cache.rs:158-165): the TTL is unused;
the call merely checks presence and fails with an `Other` error on an
absent key. -/
def expire (st : LocalState) (key : String) (_ttl : Nat) : CacheResult Unit :=
  if (alLookup st.cache key).isSome || alContains st.hash_cache key then .ok ()
  else .error (.other ("键 " ++ key ++ " 不存在"))

/-- Model of `LocalCache::del` (local_cache.rs:147-152): removes both the plain
entry and the hash entry. -/
def del (st : LocalState) (key : String) : CacheResult LocalState :=
  .ok { cache := alErase st.cache key, hash_cache := alErase st.hash_cache key }

/-- Model of `LocalCache::incr` (local_cache.rs:167-181): a missing key counts
as implicit zero; the stored bytes are parsed with `str::parse::<i64>`
(surfacing `Deserialization` on failure) and the post-operation value —
the `i64` sum `current + 1`, wrapped at the `i64` boundary per
`wrapI64` — is stored back as its decimal string. -/
def incr (st : LocalState) (key : String) : CacheResult (Int × LocalState) :=
  match alLookup st.cache key with
  | some data =>
    match parseI64 data with
    | none => .error (.deserialization "invalid digit found in string")
    | some current =>
      let v := wrapI64 (current + 1)
      .ok (v, { st with cache := alInsert st.cache key (intToString v) })
  | none =>
    .ok (1, { st with cache := alInsert st.cache key (intToString 1) })

/-- Model of `LocalCache::decr` (local_cache.rs:183-197), symmetric to `incr`
(the `i64` difference `current - 1` wrapped per `wrapI64`). -/
def decr (st : LocalState) (key : String) : CacheResult (Int × LocalState) :=
  match alLookup st.cache key with
  | some data =>
    match parseI64 data with
    | none => .error (.deserialization "invalid digit found in string")
    | some current =>
      let v := wrapI64 (current - 1)
      .ok (v, { st with cache := alInsert st.cache key (intToString v) })
  | none =>
    .ok (-1, { st with cache := alInsert st.cache key (intToString (-1)) })

/-- Model of `LocalCache::hset` (local_cache.rs:201-216): serialize, then insert
the field into the (created-on-demand) inner map for `key`. -/
def hset {α : Type} (enc : α → Option String) (st : LocalState) (key field : String)
    (v : α) : CacheResult LocalState :=
  match enc v with
  | none => .error (.serialization "JSON序列化失败")
  | some bytes =>
    let hash := (alLookup st.hash_cache key).getD []
    .ok { st with hash_cache := alInsert st.hash_cache key (alInsert hash field bytes) }

/-- Model of `LocalCache::hget` (local_cache.rs:218-232). -/
def hget {α : Type} (dec : String → Option α) (st : LocalState) (key field : String) :
    CacheResult (Option α) :=
  match alLookup st.hash_cache key with
  | some hash =>
    match alLookup hash field with
    | some data =>
      match dec data with
      | some v => .ok (some v)
      | none => .error (.serialization "JSON反序列化失败")
    | none => .ok none
  | none => .ok none

/-- Model of `LocalCache::hdel` (local_cache.rs:234-245): remove the field; if
the inner map became empty, remove the parent hash entry. -/
def hdel (st : LocalState) (key field : String) : CacheResult LocalState :=
  match alLookup st.hash_cache key with
  | some hash =>
    let hash' := alErase hash field
    if hash' = [] then .ok { st with hash_cache := alErase st.hash_cache key }
    else .ok { st with hash_cache := alInsert st.hash_cache key hash' }
  | none => .ok st

/-- Model of `LocalCache::hexists` (local_cache.rs:247-253). -/
def hexists (st : LocalState) (key field : String) : CacheResult Bool :=
  match alLookup st.hash_cache key with
  | some hash => .ok (alContains hash field)
  | none => .ok false

end LocalCache

/-! ### JSON serialization of plain strings

`MultiLevelCache::incr`/`decr` mirror the remote counter into the local
tier with `set_ex(key, &value.to_string(), ..)`, i.e. they serialize a
Rust `String` through `serde_json::to_vec`, which produces the quoted,
escaped JSON text. -/

/-- Lowercase hexadecimal digit for `d < 16`. -/
def hexDigitChar (d : Nat) : Char :=
  if d < 10 then Char.ofNat (48 + d) else Char.ofNat (87 + d)

/-- Model of `serde_json`'s escaping of a single character inside a JSON string:
quote and backslash are backslash-escaped, the named control escapes
are used where they exist, other control characters use `\u00XX`. -/
def jsonEscapeChar (c : Char) : List Char :=
  if c = '"' then ['\\', '"']
  else if c = '\\' then ['\\', '\\']
  else if c = Char.ofNat 8 then ['\\', 'b']
  else if c = Char.ofNat 12 then ['\\', 'f']
  else if c = '\n' then ['\\', 'n']
  else if c = '\r' then ['\\', 'r']
  else if c = '\t' then ['\\', 't']
  else if c.toNat < 32 then
    ['\\', 'u', '0', '0', hexDigitChar (c.toNat / 16), hexDigitChar (c.toNat % 16)]
  else [c]

/-- Model of `serde_json::to_vec` of a Rust `String`: the value wrapped in
double quotes with its characters escaped. -/
def jsonEncodeString (s : String) : String :=
  String.mk ('"' :: (List.flatten (s.data.map jsonEscapeChar) ++ ['"']))

/-- Model of `serde_json` serialization of a `String` value, as the `enc`
parameter of the generic operations; it never fails. -/
def encString (s : String) : Option String := some (jsonEncodeString s)

/-! ### Pattern-based key enumeration (`LocalCache::keys`)

`local_cache.rs:136-145` compiles the caller's pattern with
`regex_from_pattern` (`ruoyi-common/src/utils/string.rs:112-114`), which
is `Regex::new(pattern).unwrap()` — an invalid pattern panics — and
filters the plain-entry keys with `Regex::is_match` (unanchored regex
search, not shell-glob matching).

The external `regex` crate is modelled on the fragment used by the
theorems below: literal characters (alphanumerics and `: _ - / space`),
the any-character atom `.`, and the postfix repetition operators
`* + ?`. On this fragment `Regex::new` fails exactly when a repetition
operator has no preceding atom (e.g. the pattern `"*"`, or a doubled
operator), which the parser below reproduces; patterns containing
characters outside the fragment are not used in any theorem. -/

/-- A regex atom of the modelled fragment. -/
inductive RegexAtom where
  | lit (c : Char)
  | dot
deriving Repr, DecidableEq

/-- An atom with its repetition, in the modelled fragment. -/
inductive RegexElem where
  | once (a : RegexAtom)
  | star (a : RegexAtom)
  | plus (a : RegexAtom)
  | opt (a : RegexAtom)
deriving Repr, DecidableEq

/-- Characters the modelled fragment treats as regex literals. -/
def regexLitChar (c : Char) : Bool :=
  c.isAlphanum || c = ':' || c = '_' || c = '-' || c = '/' || c = ' '

/-- Model of `Regex::new` on the fragment: `none` is a compile error
(and hence a panic in `regex_from_pattern`). -/
def regexCompile : List Char → Option (List RegexElem)
  | [] => some []
  | c :: rest =>
    if c = '.' || regexLitChar c then
      let a := if c = '.' then RegexAtom.dot else RegexAtom.lit c
      match rest with
      | r :: rest' =>
        if r = '*' then (regexCompile rest').map (fun l => RegexElem.star a :: l)
        else if r = '+' then (regexCompile rest').map (fun l => RegexElem.plus a :: l)
        else if r = '?' then (regexCompile rest').map (fun l => RegexElem.opt a :: l)
        else (regexCompile (r :: rest')).map (fun l => RegexElem.once a :: l)
      | [] => some [RegexElem.once a]
    else none

/-- Whether an atom matches one character (`.` matches anything except
a newline, the regex crate's default). -/
def atomMatch : RegexAtom → Char → Bool
  | .lit c, x => c = x
  | .dot, x => x ≠ '\n'

/-- Whether the element list matches some prefix of `cs`. -/
def reMatchFront : List RegexElem → List Char → Bool
  | [], _ => true
  | .once _ :: _, [] => false
  | .once a :: r, c :: cs => atomMatch a c && reMatchFront r cs
  | .star a :: r, cs =>
    reMatchFront r cs ||
      (match cs with
       | [] => false
       | c :: cs' => atomMatch a c && reMatchFront (.star a :: r) cs')
  | .plus _ :: _, [] => false
  | .plus a :: r, c :: cs => atomMatch a c && reMatchFront (.star a :: r) cs
  | .opt a :: r, cs =>
    reMatchFront r cs ||
      (match cs with
       | [] => false
       | c :: cs' => atomMatch a c && reMatchFront r cs')
termination_by elems cs => cs.length + elems.length

/-- Model of `Regex::is_match`: unanchored search — the elements match some
substring, i.e. some prefix of some suffix. -/
def reIsMatch (elems : List RegexElem) : List Char → Bool
  | [] => reMatchFront elems []
  | c :: cs' => reMatchFront elems (c :: cs') || reIsMatch elems cs'

namespace LocalCache

/-- Model of `LocalCache::keys` (local_cache.rs:136-145): compile the pattern
with `regex_from_pattern` — `Regex::new(pattern).unwrap()`, whose panic
on an invalid pattern is modelled as `none` — then filter the plain
cache's keys by unanchored regex match. A non-panicking call never
returns a `CacheResult` error in the source, so the normal return is
just the key list. -/
def keys (st : LocalState) (pattern : String) : Option (List String) :=
  match regexCompile pattern.data with
  | none => none
  | some ast => some ((st.cache.map Prod.fst).filter (fun k => reIsMatch ast k.data))

end LocalCache

/-! ### RedisCache (`ruoyi-framework/src/cache/redis_cache.rs`)

The remote tier's observable state: the shared Redis keyspace plus a
reachability flag. `reachable = false` models a transport failure,
which `RedisCache::execute` surfaces through `From<redis::RedisError>`
as a `redis`-kind error. Store contents follow the documented semantics
of the Redis commands each method issues (`SET`, `GET`, `INCR`, `DECR`,
`EXPIRE`); TTL arguments are forwarded to Redis and do not change which
value a subsequent read observes, so they are carried but do not alter
the modelled store. -/
structure RemoteState where
  store : List (String × String)
  reachable : Bool
deriving Repr, DecidableEq

namespace RedisCache

/-- Transport failure as seen by callers of `RedisCache`. -/
def ioError : CacheError := .redis "连接失败"

/-- Model of `RedisCache::set` (redis_cache.rs:258-270): serialize first (a
serde failure propagates before any network use), then `SET`. -/
def set {α : Type} (enc : α → Option String) (r : RemoteState) (key : String)
    (v : α) : CacheResult RemoteState :=
  match enc v with
  | none => .error (.serialization "JSON序列化失败")
  | some bytes =>
    if r.reachable then .ok { r with store := alInsert r.store key bytes }
    else .error ioError

/-- Model of `RedisCache::set_ex` (redis_cache.rs:272-293): as `set`, with the
TTL forwarded to `SETEX`. -/
def set_ex {α : Type} (enc : α → Option String) (r : RemoteState) (key : String)
    (v : α) (_ttl : Nat) : CacheResult RemoteState :=
  match enc v with
  | none => .error (.serialization "JSON序列化失败")
  | some bytes =>
    if r.reachable then .ok { r with store := alInsert r.store key bytes }
    else .error ioError

/-- Model of `RedisCache::get` (redis_cache.rs:295-314): `GET`, then
`serde_json::from_str` on a hit (failure surfaces via
`From<serde_json::Error>` as `serialization`). -/
def get {α : Type} (dec : String → Option α) (r : RemoteState) (key : String) :
    CacheResult (Option α) :=
  if r.reachable then
    match alLookup r.store key with
    | some data =>
      match dec data with
      | some v => .ok (some v)
      | none => .error (.serialization "JSON反序列化失败")
    | none => .ok none
  else .error ioError

/-- Model of `RedisCache::incr` (redis_cache.rs:380-388), i.e. Redis `INCRBY 1`:
a missing key counts as zero; a stored value that is not an in-range
decimal integer is an error; the incremented value is stored back as
its decimal string and returned. -/
def incr (r : RemoteState) (key : String) : CacheResult (Int × RemoteState) :=
  if r.reachable then
    match alLookup r.store key with
    | none => .ok (1, { r with store := alInsert r.store key (intToString 1) })
    | some data =>
      match redisParseI64 data with
      | none => .error (.redis "value is not an integer or out of range")
      | some current =>
        if current + 1 > (i64MaxNat : Int) then
          .error (.redis "increment or decrement would overflow")
        else
          .ok (current + 1,
               { r with store := alInsert r.store key (intToString (current + 1)) })
  else .error ioError

/-- Model of `RedisCache::decr` (redis_cache.rs:390-398), i.e. Redis `DECRBY 1`. -/
def decr (r : RemoteState) (key : String) : CacheResult (Int × RemoteState) :=
  if r.reachable then
    match alLookup r.store key with
    | none => .ok (-1, { r with store := alInsert r.store key (intToString (-1)) })
    | some data =>
      match redisParseI64 data with
      | none => .error (.redis "value is not an integer or out of range")
      | some current =>
        if current - 1 < -((i64MinMagNat : Nat) : Int) then
          .error (.redis "increment or decrement would overflow")
        else
          .ok (current - 1,
               { r with store := alInsert r.store key (intToString (current - 1)) })
  else .error ioError

/-- Model of `RedisCache::expire` (redis_cache.rs:363-378): issues `EXPIRE` and
discards the boolean reply, so an absent key still yields `Ok(())`. -/
def expire (r : RemoteState) (_key : String) (_ttl : Nat) : CacheResult Unit :=
  if r.reachable then .ok () else .error ioError

end RedisCache

/-! ### MultiLevelCache (`ruoyi-framework/src/cache/multi_level_cache.rs`) -/

/-- State of a `MultiLevelCache` instance: the local tier, the optional
remote tier (`None` in fallback mode), the configured local TTL
(`config.local_ttl`), and the fallback flag. -/
structure MultiState where
  local_cache : LocalState
  redis_cache : Option RemoteState
  local_ttl : Nat
  is_fallback_mode : Bool
deriving Repr, DecidableEq

namespace MultiLevelCache

/-- Model of `MultiLevelCache::new` (multi_level_cache.rs:64-97): the local tier
is built unconditionally (its construction cannot fail); the remote
tier's construction outcome is the `redis_result` argument. On a remote
failure, `fallback_to_local = true` yields a remote-less instance in
fallback mode, otherwise the remote error is propagated and no instance
is produced. -/
def new (redis_result : CacheResult RemoteState) (fallback_to_local : Bool)
    (local_ttl : Nat) : CacheResult MultiState :=
  let local_cache := LocalState.empty
  match redis_result with
  | .ok redis => .ok ⟨local_cache, some redis, local_ttl, false⟩
  | .error e =>
    if fallback_to_local then .ok ⟨local_cache, none, local_ttl, true⟩
    else .error e

/-- Model of `MultiLevelCache::is_in_fallback_mode` (multi_level_cache.rs:100-102). -/
def is_in_fallback_mode (st : MultiState) : Bool := st.is_fallback_mode

/-- Model of `MultiLevelCache::set` (multi_level_cache.rs:112-131): a throwaway
serialization (`let _serialized_value = serde_json::to_vec(value)?`),
then the local write with the configured local TTL — whose failure
fails the call — then the best-effort remote mirror, whose failure is
only logged. -/
def set {α : Type} (enc : α → Option String) (st : MultiState) (key : String)
    (v : α) : CacheResult MultiState :=
  match enc v with
  | none => .error (.serialization "JSON序列化失败")
  | some _ =>
    match LocalCache.set_ex enc st.local_cache key v st.local_ttl with
    | .error e => .error e
    | .ok lc =>
      match st.redis_cache with
      | some redis =>
        match RedisCache.set enc redis key v with
        | .ok r' => .ok { st with local_cache := lc, redis_cache := some r' }
        | .error _ => .ok { st with local_cache := lc }
      | none => .ok { st with local_cache := lc }

/-- Model of `MultiLevelCache::set_ex` (multi_level_cache.rs:133-152): local
write with `min(ttl, local_ttl)`, then best-effort remote mirror with
the caller's TTL. -/
def set_ex {α : Type} (enc : α → Option String) (st : MultiState) (key : String)
    (v : α) (ttl : Nat) : CacheResult MultiState :=
  match LocalCache.set_ex enc st.local_cache key v (min ttl st.local_ttl) with
  | .error e => .error e
  | .ok lc =>
    match st.redis_cache with
    | some redis =>
      match RedisCache.set_ex enc redis key v ttl with
      | .ok r' => .ok { st with local_cache := lc, redis_cache := some r' }
      | .error _ => .ok { st with local_cache := lc }
    | none => .ok { st with local_cache := lc }

/-- Model of `MultiLevelCache::get` (multi_level_cache.rs:154-184): local first,
returning on a hit; a local miss (or local error, which is only
logged) falls through to the remote tier when present; a remote miss
or error yields `Ok(None)`. The read performs no writes in either
tier — in particular a remote hit is not backfilled into the local
tier — which is why it returns no successor state. -/
def get {α : Type} (dec : String → Option α) (st : MultiState) (key : String) :
    CacheResult (Option α) :=
  match LocalCache.get dec st.local_cache key with
  | .ok (some v) => .ok (some v)
  | _ =>
    match st.redis_cache with
    | some redis =>
      match RedisCache.get dec redis key with
      | .ok (some v) => .ok (some v)
      | _ => .ok none
    | none => .ok none

/-- The remote half of `MultiLevelCache::expire`: attempted when a
remote tier is present, its error only logged. -/
def expireRemoteHalf (st : MultiState) (key : String) (ttl : Nat) : CacheResult Unit :=
  match st.redis_cache with
  | some redis =>
    match RedisCache.expire redis key ttl with
    | .ok _ => .ok ()
    | .error _ => .ok ()
  | none => .ok ()

/-- Model of `MultiLevelCache::expire` (multi_level_cache.rs:238-253): the local
expire (with `min(ttl, local_ttl)`) has its error only logged, the
remote expire (with the caller's TTL) has its error only logged, and
the call always returns `Ok(())`. -/
def expire (st : MultiState) (key : String) (ttl : Nat) : CacheResult Unit :=
  match LocalCache.expire st.local_cache key (min ttl st.local_ttl) with
  | .ok _ => expireRemoteHalf st key ttl
  | .error _ => expireRemoteHalf st key ttl

/-- The local-only fallback branch of `MultiLevelCache::incr`, taken
when the remote tier is absent or its operation failed. -/
def incrLocalFallback (st : MultiState) (key : String) : CacheResult (Int × MultiState) :=
  match LocalCache.incr st.local_cache key with
  | .ok (v, lc) => .ok (v, { st with local_cache := lc })
  | .error e => .error e

/-- The local-only fallback branch of `MultiLevelCache::decr`. -/
def decrLocalFallback (st : MultiState) (key : String) : CacheResult (Int × MultiState) :=
  match LocalCache.decr st.local_cache key with
  | .ok (v, lc) => .ok (v, { st with local_cache := lc })
  | .error e => .error e

/-- Model of `MultiLevelCache::incr` (multi_level_cache.rs:255-279): with a
remote tier present, increment there first; on success mirror the
resulting value into the local tier as
`set_ex(key, &value.to_string(), local_ttl)` — a plain overwrite whose
failure is only logged — and return the remote value. Only if the
remote operation fails (or no remote tier exists) is a local-only
counter operation performed. -/
def incr (st : MultiState) (key : String) : CacheResult (Int × MultiState) :=
  match st.redis_cache with
  | some redis =>
    match RedisCache.incr redis key with
    | .ok (value, r') =>
      match LocalCache.set_ex encString st.local_cache key (intToString value)
          st.local_ttl with
      | .ok lc => .ok (value, { st with local_cache := lc, redis_cache := some r' })
      | .error _ => .ok (value, { st with redis_cache := some r' })
    | .error _ => incrLocalFallback st key
  | none => incrLocalFallback st key

/-- Model of `MultiLevelCache::decr` (multi_level_cache.rs:281-305), symmetric
to `incr`. -/
def decr (st : MultiState) (key : String) : CacheResult (Int × MultiState) :=
  match st.redis_cache with
  | some redis =>
    match RedisCache.decr redis key with
    | .ok (value, r') =>
      match LocalCache.set_ex encString st.local_cache key (intToString value)
          st.local_ttl with
      | .ok lc => .ok (value, { st with local_cache := lc, redis_cache := some r' })
      | .error _ => .ok (value, { st with redis_cache := some r' })
    | .error _ => decrLocalFallback st key
  | none => decrLocalFallback st key

end MultiLevelCache

/-! ### Registry initialization outcomes (`global_cache.rs`) -/

/-- The poll-loop exit of a caller that lost the initialization CAS
(`global_cache.rs:70-85`): after the winner finishes, the loser returns
`Ok(())` when `INITIALIZED` is set, and otherwise the fixed generic
error `Other("全局缓存初始化失败")` — it does not retry construction
itself. -/
def pollerOutcome (initialized : Bool) : CacheResult Unit :=
  if initialized then .ok () else .error (.other "全局缓存初始化失败")

/-- The outcome for the caller that won the CAS and whose backend
construction failed (`global_cache.rs:88-109`): the construction error
is returned verbatim. -/
def initializerOutcome (constructionError : CacheError) : CacheResult Unit :=
  .error constructionError

/-- The counter value Redis's `INCR`/`DECR` see for a key: implicit
zero when absent, otherwise the stored value's integer parse. -/
def remoteCounterVal (r : RemoteState) (key : String) : Option Int :=
  match alLookup r.store key with
  | none => some 0
  | some data => redisParseI64 data

/-! ### Supporting lemmas -/

theorem alLookup_alInsert_self {β : Type} (m : List (String × β)) (key : String) (v : β) :
    alLookup (alInsert m key v) key = some v := by
  simp [alInsert, alLookup]

theorem alLookup_alErase {β : Type} (m : List (String × β)) (key k : String) :
    alLookup (alErase m key) k = if key = k then none else alLookup m k := by
  induction m with
  | nil => simp [alErase, alLookup]
  | cons hd tl ih =>
    obtain ⟨k', v'⟩ := hd
    by_cases h1 : k' = key
    · subst h1
      rw [show alErase ((k', v') :: tl) k' = alErase tl k' by simp [alErase]]
      rw [ih]
      by_cases h2 : k' = k
      · simp [h2]
      · simp [alLookup, h2]
    · by_cases h2 : k' = k
      · subst h2
        have h3 : ¬ key = k' := fun h => h1 h.symm
        simp [alErase, alLookup, h1, h3]
      · simp [alErase, alLookup, h1, h2, ih]

theorem alLookup_alInsert_ne {β : Type} (m : List (String × β)) (key k : String) (v : β)
    (h : key ≠ k) : alLookup (alInsert m key v) k = alLookup m k := by
  simp [alInsert, alLookup, h, alLookup_alErase]

theorem natToDecimal_all_digits (n : Nat) : (natToDecimal n).all Char.isDigit = true := by
  induction n using Nat.strong_induction_on with
  | _ n ih =>
    rw [natToDecimal]
    by_cases h : n < 10
    · have hd : (decDigitChar n).isDigit = true := by
        unfold decDigitChar; interval_cases n <;> decide
      simp [h, hd]
    · have hlt : n / 10 < n := Nat.div_lt_self (by omega) (by omega)
      have hm : (decDigitChar (n % 10)).isDigit = true := by
        have hb : n % 10 < 10 := Nat.mod_lt _ (by omega)
        unfold decDigitChar; interval_cases hc : (n % 10) <;> decide
      simp [h, List.all_append, ih _ hlt, hm]

theorem natToDecimal_foldl (n : Nat) : (natToDecimal n).foldl decStep 0 = n := by
  induction n using Nat.strong_induction_on with
  | _ n ih =>
    rw [natToDecimal]
    by_cases h : n < 10
    · have hd : (decDigitChar n).toNat - 48 = n := by
        unfold decDigitChar; interval_cases n <;> decide
      simp [h, decStep, hd]
    · have hlt : n / 10 < n := Nat.div_lt_self (by omega) (by omega)
      have hm : (decDigitChar (n % 10)).toNat - 48 = n % 10 := by
        have hb : n % 10 < 10 := Nat.mod_lt _ (by omega)
        unfold decDigitChar; interval_cases hc : (n % 10) <;> decide
      simp [h, List.foldl_append, ih _ hlt, decStep, hm]
      omega

theorem natToDecimal_ne_nil (n : Nat) : natToDecimal n ≠ [] := by
  rw [natToDecimal]
  by_cases h : n < 10 <;> simp [h]

theorem digitsToNat?_natToDecimal (n : Nat) : digitsToNat? (natToDecimal n) = some n := by
  simp [digitsToNat?, natToDecimal_ne_nil, natToDecimal_all_digits, natToDecimal_foldl]

/-- Round trip: parsing the decimal rendering of an in-range `i64`
value recovers it, for both parser variants. -/
theorem parseI64Core_intToString (ap : Bool) (n : Int)
    (h1 : -(2 ^ 63 : Int) ≤ n) (h2 : n ≤ 2 ^ 63 - 1) :
    parseI64Core ap (intToString n).data = some n := by
  by_cases hn : n < 0
  · have hdata : (intToString n).data = '-' :: natToDecimal (-n).toNat := by
      simp [intToString, hn]
    rw [hdata]
    have hmag : ((-n).toNat : Int) = -n := Int.toNat_of_nonneg (by omega)
    have hle : (-n).toNat ≤ i64MinMagNat := by
      unfold i64MinMagNat; omega
    simp [parseI64Core, digitsToNat?_natToDecimal, hle]
    omega
  · have hdata : (intToString n).data = natToDecimal n.toNat := by
      simp [intToString, hn]
    rw [hdata]
    obtain ⟨c, rest, hcr⟩ : ∃ c rest, natToDecimal n.toNat = c :: rest := by
      cases h : natToDecimal n.toNat with
      | nil => exact absurd h (natToDecimal_ne_nil _)
      | cons c rest => exact ⟨c, rest, rfl⟩
    have hdig : c.isDigit = true := by
      have hall := natToDecimal_all_digits n.toNat
      rw [hcr] at hall
      simp [List.all_cons] at hall
      exact hall.1
    have hcm : ¬ c = '-' := by
      intro h; rw [h] at hdig; exact absurd hdig (by decide)
    have hcp : ¬ c = '+' := by
      intro h; rw [h] at hdig; exact absurd hdig (by decide)
    have hnum : digitsToNat? (c :: rest) = some n.toNat := by
      rw [← hcr]; exact digitsToNat?_natToDecimal _
    have hle : n.toNat ≤ i64MaxNat := by
      unfold i64MaxNat; omega
    rw [hcr]
    simp [parseI64Core, hcm, hcp, hnum, hle]
    omega

/-- A JSON-quoted string never parses as a decimal `i64`: its first
byte is `"`. -/
theorem parseI64Core_jsonEncodeString (ap : Bool) (s : String) :
    parseI64Core ap (jsonEncodeString s).data = none := by
  have hq : ('"' : Char).isDigit = false := by decide
  have hplus : (ap && decide (('"' : Char) = '+')) = false := by cases ap <;> rfl
  show parseI64Core ap ('"' :: (List.flatten (s.data.map jsonEscapeChar) ++ ['"'])) = none
  simp [parseI64Core, digitsToNat?, List.all_cons, hq, hplus]

theorem expireRemoteHalf_ok (st : MultiState) (key : String) (ttl : Nat) :
    MultiLevelCache.expireRemoteHalf st key ttl = .ok () := by
  unfold MultiLevelCache.expireRemoteHalf
  split
  · split <;> rfl
  · rfl

theorem intToString_one : intToString 1 = "1" := by
  rw [intToString]
  norm_num
  rw [natToDecimal]
  norm_num
  decide

theorem intToString_neg_one : intToString (-1) = "-1" := by
  rw [intToString]
  norm_num
  rw [natToDecimal]
  norm_num
  decide

/-- Whatever branch `LocalCache::incr` takes to a success, the stored
bytes are the decimal rendering of the returned value. -/
theorem local_incr_stores (st st1 : LocalState) (key : String) (v : Int)
    (hok : LocalCache.incr st key = .ok (v, st1)) :
    st1.cache = alInsert st.cache key (intToString v) := by
  unfold LocalCache.incr at hok
  split at hok
  · split at hok
    · exact absurd hok (by simp)
    · simp only [Except.ok.injEq, Prod.mk.injEq] at hok
      obtain ⟨hv, hst⟩ := hok
      subst hst
      rw [← hv]
  · simp only [Except.ok.injEq, Prod.mk.injEq] at hok
    obtain ⟨hv, hst⟩ := hok
    subst hst
    rw [← hv]

/-- The `DECR` counterpart of `local_incr_stores`. -/
theorem local_decr_stores (st st1 : LocalState) (key : String) (v : Int)
    (hok : LocalCache.decr st key = .ok (v, st1)) :
    st1.cache = alInsert st.cache key (intToString v) := by
  unfold LocalCache.decr at hok
  split at hok
  · split at hok
    · exact absurd hok (by simp)
    · simp only [Except.ok.injEq, Prod.mk.injEq] at hok
      obtain ⟨hv, hst⟩ := hok
      subst hst
      rw [← hv]
  · simp only [Except.ok.injEq, Prod.mk.injEq] at hok
    obtain ⟨hv, hst⟩ := hok
    subst hst
    rw [← hv]

theorem i64MaxNat_cast : ((i64MaxNat : Nat) : Int) = 2 ^ 63 - 1 := by
  norm_num [i64MaxNat]

theorem i64MinMagNat_cast : ((i64MinMagNat : Nat) : Int) = 2 ^ 63 := by
  norm_num [i64MinMagNat]

/-- Running `INCR` on a reachable remote whose counter view is `n` (in range)
returns `n + 1` and stores its decimal rendering. -/
theorem redis_incr_counter (redis : RemoteState) (key : String) (n : Int)
    (hup : redis.reachable = true) (hn : remoteCounterVal redis key = some n)
    (hhi : n + 1 ≤ 2 ^ 63 - 1) :
    RedisCache.incr redis key =
      .ok (n + 1, { redis with store := alInsert redis.store key (intToString (n + 1)) }) := by
  cases hl : alLookup redis.store key with
  | none =>
    have hn0 : n = 0 := by
      unfold remoteCounterVal at hn
      rw [hl] at hn
      simpa using hn.symm
    subst hn0
    simp [RedisCache.incr, hup, hl]
  | some data =>
    have hp : redisParseI64 data = some n := by
      unfold remoteCounterVal at hn
      rw [hl] at hn
      simpa using hn
    have hne : ¬ (n + 1 > ((i64MaxNat : Nat) : Int)) := by rw [i64MaxNat_cast]; omega
    simp [RedisCache.incr, hup, hl, hp, hne]

/-- The `DECR` counterpart of `redis_incr_counter`. -/
theorem redis_decr_counter (redis : RemoteState) (key : String) (n : Int)
    (hup : redis.reachable = true) (hn : remoteCounterVal redis key = some n)
    (hlo : -(2 ^ 63) ≤ n - 1) :
    RedisCache.decr redis key =
      .ok (n - 1, { redis with store := alInsert redis.store key (intToString (n - 1)) }) := by
  cases hl : alLookup redis.store key with
  | none =>
    have hn0 : n = 0 := by
      unfold remoteCounterVal at hn
      rw [hl] at hn
      simpa using hn.symm
    subst hn0
    simp [RedisCache.decr, hup, hl]
  | some data =>
    have hp : redisParseI64 data = some n := by
      unfold remoteCounterVal at hn
      rw [hl] at hn
      simpa using hn
    have hne : ¬ (n - 1 < -((i64MinMagNat : Nat) : Int)) := by rw [i64MinMagNat_cast]; omega
    simp [RedisCache.decr, hup, hl, hp, hne]

/-! ### Claim theorems -/

/-- C4: `MultiLevelCache::new` builds the Local tier unconditionally
and then attempts the Remote tier; on a Remote failure with
`fallback_to_local = true` it succeeds in fallback mode (no remote tier
held, `is_in_fallback_mode` true), and with `fallback_to_local = false`
it propagates the Remote error, producing no instance. -/
theorem multi_new_fallback_policy (e : CacheError) (redis : RemoteState) (ttl : Nat) :
    (MultiLevelCache.new (.ok redis) true ttl =
        .ok ⟨LocalState.empty, some redis, ttl, false⟩) ∧
    (MultiLevelCache.new (.ok redis) false ttl =
        .ok ⟨LocalState.empty, some redis, ttl, false⟩) ∧
    (MultiLevelCache.new (.error e) true ttl =
        .ok ⟨LocalState.empty, none, ttl, true⟩ ∧
      MultiLevelCache.is_in_fallback_mode ⟨LocalState.empty, none, ttl, true⟩ = true ∧
      (⟨LocalState.empty, none, ttl, true⟩ : MultiState).redis_cache = none) ∧
    (MultiLevelCache.new (.error e) false ttl = .error e) ∧
    MultiLevelCache.is_in_fallback_mode ⟨LocalState.empty, some redis, ttl, false⟩ = false :=
  ⟨rfl, rfl, ⟨rfl, rfl, rfl⟩, rfl, rfl⟩

/-- C6 (as stated, refuted): a poller that observed a failed
initialization does not receive the winner's construction error
verbatim — at the concrete construction error
`Connection("Redis连接失败")` the poller's error is the fixed generic
`Other("全局缓存初始化失败")` instead. -/
theorem registry_poller_error_counterexample :
    initializerOutcome (CacheError.connection "Redis连接失败") =
        .error (.connection "Redis连接失败") ∧
    pollerOutcome false = .error (.other "全局缓存初始化失败") ∧
    pollerOutcome false ≠ initializerOutcome (CacheError.connection "Redis连接失败") := by
  refine ⟨rfl, rfl, ?_⟩
  simp [pollerOutcome, initializerOutcome]

/-- C6 amended: the initializing caller receives the construction error
verbatim, while a losing poller that observed the failure receives the
fixed generic `Other("全局缓存初始化失败")` error (and does not retry
construction); a poller that observed success returns `Ok`. -/
theorem registry_failure_reporting (e : CacheError) :
    initializerOutcome e = .error e ∧
    pollerOutcome false = .error (.other "全局缓存初始化失败") ∧
    pollerOutcome true = .ok () :=
  ⟨rfl, rfl, rfl⟩

/-- C5 (as stated, refuted): `MultiLevelCache::expire` on a key absent
from both tiers returns `Ok(())`, not an `Other`-kind error — shown
here on a fallback-mode instance with empty local tier and key `"k"`. -/
theorem multi_expire_absent_key_counterexample :
    MultiLevelCache.expire ⟨LocalState.empty, none, 300, true⟩ "k" 60 = .ok () := by
  rfl

/-- C5 amended: the Local backend's `expire` on a key it does not store
returns an `Other`-kind error, but `MultiLevelCache::expire` absorbs
both tiers' failures (they are only logged) and always returns `Ok`,
so the contract-level extension to the MultiLevelCache backend fails. -/
theorem expire_absent_key_policy (st : LocalState) (mst : MultiState) (key : String)
    (ttl : Nat) (h1 : alLookup st.cache key = none)
    (h2 : alContains st.hash_cache key = false) :
    LocalCache.expire st key ttl = .error (.other ("键 " ++ key ++ " 不存在")) ∧
    MultiLevelCache.expire mst key ttl = .ok () := by
  constructor
  · simp [LocalCache.expire, h1, h2]
  · unfold MultiLevelCache.expire
    split
    · exact expireRemoteHalf_ok mst key ttl
    · exact expireRemoteHalf_ok mst key ttl

/-- Witness for C5's amended theorem at key `"k"` on empty states. -/
theorem expire_absent_key_policy_witness :
    LocalCache.expire LocalState.empty "k" 60 =
        .error (.other ("键 " ++ "k" ++ " 不存在")) ∧
    MultiLevelCache.expire ⟨LocalState.empty, some ⟨[], true⟩, 300, false⟩ "k" 60 = .ok () :=
  expire_absent_key_policy LocalState.empty ⟨LocalState.empty, some ⟨[], true⟩, 300, false⟩
    "k" 60 rfl rfl

/-- C7: the Local backend's counters treat a missing key as implicit
zero (`incr` returns 1, `decr` returns -1), always store the
post-operation value as its decimal string, and surface a
`Deserialization` error when the stored bytes do not parse as a decimal
integer. -/
theorem local_counter_semantics (st : LocalState) (key : String) :
    (alLookup st.cache key = none →
      ∃ st1, LocalCache.incr st key = .ok (1, st1) ∧
        alLookup st1.cache key = some (intToString 1)) ∧
    (alLookup st.cache key = none →
      ∃ st1, LocalCache.decr st key = .ok (-1, st1) ∧
        alLookup st1.cache key = some (intToString (-1))) ∧
    (∀ v st1, LocalCache.incr st key = .ok (v, st1) →
        alLookup st1.cache key = some (intToString v)) ∧
    (∀ v st1, LocalCache.decr st key = .ok (v, st1) →
        alLookup st1.cache key = some (intToString v)) ∧
    (∀ data, alLookup st.cache key = some data → parseI64 data = none →
      LocalCache.incr st key = .error (.deserialization "invalid digit found in string") ∧
      LocalCache.decr st key = .error (.deserialization "invalid digit found in string")) ∧
    intToString 1 = "1" ∧ intToString (-1) = "-1" := by
  refine ⟨?_, ?_, ?_, ?_, ?_, intToString_one, intToString_neg_one⟩
  · intro h
    refine ⟨{ st with cache := alInsert st.cache key (intToString 1) }, ?_, ?_⟩
    · simp [LocalCache.incr, h]
    · exact alLookup_alInsert_self _ _ _
  · intro h
    refine ⟨{ st with cache := alInsert st.cache key (intToString (-1)) }, ?_, ?_⟩
    · simp [LocalCache.decr, h]
    · exact alLookup_alInsert_self _ _ _
  · intro v st1 hok
    rw [local_incr_stores st st1 key v hok]
    exact alLookup_alInsert_self _ _ _
  · intro v st1 hok
    rw [local_decr_stores st st1 key v hok]
    exact alLookup_alInsert_self _ _ _
  · intro data hl hp
    constructor
    · simp [LocalCache.incr, hl, hp]
    · simp [LocalCache.decr, hl, hp]

/-- Witness for C7 on the empty local cache at key `"k"`, plus the
`Deserialization` case on a non-numeric stored payload. -/
theorem local_counter_semantics_witness :
    (∃ st1, LocalCache.incr LocalState.empty "k" = .ok (1, st1) ∧
      alLookup st1.cache "k" = some (intToString 1)) ∧
    LocalCache.incr ⟨[("k", "abc")], []⟩ "k" =
      .error (.deserialization "invalid digit found in string") :=
  ⟨(local_counter_semantics LocalState.empty "k").1 rfl,
   ((local_counter_semantics ⟨[("k", "abc")], []⟩ "k").2.2.2.2.1 "abc" rfl
      (by decide)).1⟩

/-- C8: hash-field lifecycle on the Local backend — after `hset` the
field exists; after `hdel` of the hash's only field the field is gone,
the parent hash entry is removed, and (with no plain entry under the
same key) `exists` is false. -/
theorem local_hash_field_lifecycle {α : Type} (enc : α → Option String)
    (st : LocalState) (key field : String) (v : α) (bytes : String)
    (henc : enc v = some bytes)
    (hplain : alLookup st.cache key = none)
    (hhash : alLookup st.hash_cache key = none) :
    ∃ st1 st2,
      LocalCache.hset enc st key field v = .ok st1 ∧
      LocalCache.hexists st1 key field = .ok true ∧
      LocalCache.hdel st1 key field = .ok st2 ∧
      LocalCache.hexists st2 key field = .ok false ∧
      LocalCache.existsKey st2 key = .ok false := by
  refine ⟨{ st with hash_cache := alInsert st.hash_cache key [(field, bytes)] },
          { st with hash_cache := alErase (alInsert st.hash_cache key [(field, bytes)]) key },
          ?_, ?_, ?_, ?_, ?_⟩
  · simp [LocalCache.hset, henc, hhash, alInsert, alErase]
  · simp [LocalCache.hexists, alLookup_alInsert_self, alContains, alLookup]
  · simp [LocalCache.hdel, alLookup_alInsert_self, alErase]
  · simp [LocalCache.hexists, alLookup_alErase]
  · simp [LocalCache.existsKey, hplain, alContains, alLookup_alErase]

/-- Witness for C8: the lifecycle on the empty cache with a string
value under the identity serialization. -/
theorem local_hash_field_lifecycle_witness :
    ∃ st1 st2,
      LocalCache.hset (fun s => some s) LocalState.empty "h" "f" "v" = .ok st1 ∧
      LocalCache.hexists st1 "h" "f" = .ok true ∧
      LocalCache.hdel st1 "h" "f" = .ok st2 ∧
      LocalCache.hexists st2 "h" "f" = .ok false ∧
      LocalCache.existsKey st2 "h" = .ok false :=
  local_hash_field_lifecycle (fun s => some s) LocalState.empty "h" "f" "v" "v"
    rfl rfl rfl

/-- C1: for any serializable value (`enc v` succeeds and round-trips
through `dec`), `MultiLevelCache::set` succeeds whenever the local
write succeeds — for every remote-tier state, including an unreachable
remote whose mirrored write fails and is only logged — and an
immediately following `MultiLevelCache::get` of the same key returns
the written value (from the local tier). -/
theorem multi_set_local_durability {α : Type} (enc : α → Option String)
    (dec : String → Option α) (st : MultiState) (key : String) (v : α) (bytes : String)
    (henc : enc v = some bytes) (hdec : dec bytes = some v) :
    ∃ st', MultiLevelCache.set enc st key v = .ok st' ∧
      MultiLevelCache.get dec st' key = .ok (some v) ∧
      alLookup st'.local_cache.cache key = some bytes := by
  have hl : LocalCache.set_ex enc st.local_cache key v st.local_ttl =
      .ok { st.local_cache with cache := alInsert st.local_cache.cache key bytes } := by
    simp [LocalCache.set_ex, henc]
  have hget : ∀ mst : MultiState,
      alLookup mst.local_cache.cache key = some bytes →
      MultiLevelCache.get dec mst key = .ok (some v) := by
    intro mst hm
    have hlg : LocalCache.get dec mst.local_cache key = .ok (some v) := by
      simp [LocalCache.get, hm, hdec]
    simp [MultiLevelCache.get, hlg]
  cases hr : st.redis_cache with
  | none =>
    refine ⟨{ st with local_cache :=
        { st.local_cache with cache := alInsert st.local_cache.cache key bytes } },
      ?_, ?_, ?_⟩
    · simp [MultiLevelCache.set, henc, hl, hr]
    · exact hget _ (alLookup_alInsert_self _ _ _)
    · exact alLookup_alInsert_self _ _ _
  | some redis =>
    cases hs : RedisCache.set enc redis key v with
    | ok r' =>
      refine ⟨{ st with
          local_cache :=
            { st.local_cache with cache := alInsert st.local_cache.cache key bytes },
          redis_cache := some r' }, ?_, ?_, ?_⟩
      · simp [MultiLevelCache.set, henc, hl, hr, hs]
      · exact hget _ (alLookup_alInsert_self _ _ _)
      · exact alLookup_alInsert_self _ _ _
    | error e =>
      refine ⟨{ st with local_cache :=
          { st.local_cache with cache := alInsert st.local_cache.cache key bytes } },
        ?_, ?_, ?_⟩
      · simp [MultiLevelCache.set, henc, hl, hr, hs]
      · exact hget _ (alLookup_alInsert_self _ _ _)
      · exact alLookup_alInsert_self _ _ _

/-- Witness for C1: writing `"v"` under the identity codec with an
unreachable remote tier (the mirrored write fails) still returns `Ok`
and the value is immediately readable. -/
theorem multi_set_local_durability_witness :
    ∃ st', MultiLevelCache.set (fun s => some s)
        ⟨LocalState.empty, some ⟨[], false⟩, 300, false⟩ "k" "v" = .ok st' ∧
      MultiLevelCache.get (fun s => some s) st' "k" = .ok (some "v") ∧
      alLookup st'.local_cache.cache "k" = some "v" :=
  multi_set_local_durability (fun s => some s) (fun s => some s)
    ⟨LocalState.empty, some ⟨[], false⟩, 300, false⟩ "k" "v" "v" rfl rfl

/-- C2: `MultiLevelCache::get` returns the local tier's value on a
local hit for every remote state (present, absent, or failing); on a
local miss it returns the remote tier's value on a remote hit; and it
returns `None` when both tiers miss. The read path performs no writes —
the embedding's `get` consumes the state without producing a successor,
mirroring the source's explicit decision not to backfill the local
tier on a remote hit. -/
theorem multi_get_read_path {α : Type} (dec : String → Option α) (st : MultiState)
    (key : String) :
    (∀ v, LocalCache.get dec st.local_cache key = .ok (some v) →
        MultiLevelCache.get dec st key = .ok (some v)) ∧
    (∀ redis v, LocalCache.get dec st.local_cache key = .ok none →
        st.redis_cache = some redis →
        RedisCache.get dec redis key = .ok (some v) →
        MultiLevelCache.get dec st key = .ok (some v)) ∧
    (∀ redis, LocalCache.get dec st.local_cache key = .ok none →
        st.redis_cache = some redis →
        RedisCache.get dec redis key = .ok none →
        MultiLevelCache.get dec st key = .ok none) ∧
    (LocalCache.get dec st.local_cache key = .ok none → st.redis_cache = none →
        MultiLevelCache.get dec st key = .ok none) := by
  refine ⟨?_, ?_, ?_, ?_⟩
  · intro v h
    simp [MultiLevelCache.get, h]
  · intro redis v hlocal hr hremote
    simp [MultiLevelCache.get, hlocal, hr, hremote]
  · intro redis hlocal hr hremote
    simp [MultiLevelCache.get, hlocal, hr, hremote]
  · intro hlocal hr
    simp [MultiLevelCache.get, hlocal, hr]

/-- Witness for C2: a local hit is returned even with no remote tier
(fallback mode), and a double miss returns `None`. -/
theorem multi_get_read_path_witness :
    MultiLevelCache.get (fun s => some s) ⟨⟨[("k", "v")], []⟩, none, 300, true⟩ "k" =
        .ok (some "v") ∧
    MultiLevelCache.get (fun s => some s) ⟨LocalState.empty, none, 300, true⟩ "k" =
        .ok none :=
  ⟨(multi_get_read_path (fun s => some s) ⟨⟨[("k", "v")], []⟩, none, 300, true⟩ "k").1 "v"
      (by simp [LocalCache.get, alLookup]),
   (multi_get_read_path (fun s => some s) ⟨LocalState.empty, none, 300, true⟩ "k").2.2.2
      (by simp [LocalCache.get, alLookup, LocalState.empty]) rfl⟩

/-- C3: with a (reachable) remote tier present, `incr`/`decr` perform
the counter operation on the remote first and return its resulting
value — two sequential `incr` calls return the strictly increasing
values `n+1`, `n+2` tracking the remote counter, for every local-tier
state, stale contents included — mirroring the result into the local
tier as a plain overwrite (the serialized string of the value, not a
local counter operation). Only when the remote operation fails does the
call perform the local-only counter fallback instead. -/
theorem multi_incr_remote_authority (st : MultiState) (redis : RemoteState)
    (key : String) :
    (∀ n : Int, st.redis_cache = some redis → redis.reachable = true →
      remoteCounterVal redis key = some n →
      -(2 ^ 63) ≤ n → n + 2 ≤ 2 ^ 63 - 1 →
      ∃ st1 r1 st2,
        MultiLevelCache.incr st key = .ok (n + 1, st1) ∧
        st1.redis_cache = some r1 ∧
        remoteCounterVal r1 key = some (n + 1) ∧
        alLookup st1.local_cache.cache key =
          some (jsonEncodeString (intToString (n + 1))) ∧
        MultiLevelCache.incr st1 key = .ok (n + 2, st2) ∧
        n + 1 < n + 2) ∧
    (∀ n : Int, st.redis_cache = some redis → redis.reachable = true →
      remoteCounterVal redis key = some n →
      -(2 ^ 63) ≤ n - 1 → n ≤ 2 ^ 63 - 1 →
      ∃ st1, MultiLevelCache.decr st key = .ok (n - 1, st1) ∧
        alLookup st1.local_cache.cache key =
          some (jsonEncodeString (intToString (n - 1)))) ∧
    (∀ e, st.redis_cache = some redis → RedisCache.incr redis key = .error e →
      MultiLevelCache.incr st key = MultiLevelCache.incrLocalFallback st key) ∧
    (∀ e, st.redis_cache = some redis → RedisCache.decr redis key = .error e →
      MultiLevelCache.decr st key = MultiLevelCache.decrLocalFallback st key) := by
  refine ⟨?_, ?_, ?_, ?_⟩
  · intro n hr hup hn hlo hhi
    have hinc1 := redis_incr_counter redis key n hup hn (by omega)
    have hmirror1 : LocalCache.set_ex encString st.local_cache key (intToString (n + 1))
        st.local_ttl =
        .ok { st.local_cache with
          cache := alInsert st.local_cache.cache key (jsonEncodeString (intToString (n + 1))) } := by
      simp [LocalCache.set_ex, encString]
    have hcv1 : remoteCounterVal
        { redis with store := alInsert redis.store key (intToString (n + 1)) } key =
        some (n + 1) := by
      unfold remoteCounterVal
      rw [show alLookup (alInsert redis.store key (intToString (n + 1))) key =
            some (intToString (n + 1)) from alLookup_alInsert_self _ _ _]
      exact parseI64Core_intToString false (n + 1) (by omega) (by omega)
    have hinc2 := redis_incr_counter
      { redis with store := alInsert redis.store key (intToString (n + 1)) } key (n + 1)
      (by simpa using hup) hcv1 (by omega)
    refine ⟨{ st with
        local_cache := { st.local_cache with
          cache := alInsert st.local_cache.cache key (jsonEncodeString (intToString (n + 1))) },
        redis_cache := some { redis with
          store := alInsert redis.store key (intToString (n + 1)) } },
      { redis with store := alInsert redis.store key (intToString (n + 1)) },
      { st with
        local_cache := { st.local_cache with
          cache := alInsert
            (alInsert st.local_cache.cache key (jsonEncodeString (intToString (n + 1))))
            key (jsonEncodeString (intToString (n + 2))) },
        redis_cache := some { redis with
          store := alInsert (alInsert redis.store key (intToString (n + 1)))
            key (intToString (n + 2)) } },
      ?_, rfl, hcv1, ?_, ?_, by omega⟩
    · simp [MultiLevelCache.incr, hr, hinc1, hmirror1]
    · exact alLookup_alInsert_self _ _ _
    · have hmirror2 : LocalCache.set_ex encString
          { st.local_cache with
            cache := alInsert st.local_cache.cache key (jsonEncodeString (intToString (n + 1))) }
          key (intToString (n + 2)) st.local_ttl =
          .ok { st.local_cache with
            cache := alInsert
              (alInsert st.local_cache.cache key (jsonEncodeString (intToString (n + 1))))
              key (jsonEncodeString (intToString (n + 2))) } := by
        simp [LocalCache.set_ex, encString]
      have h12 : n + 1 + 1 = n + 2 := by omega
      rw [h12] at hinc2
      simp [MultiLevelCache.incr, hinc2, hmirror2]
  · intro n hr hup hn hlo hhi
    have hdec1 := redis_decr_counter redis key n hup hn (by omega)
    have hmirror1 : LocalCache.set_ex encString st.local_cache key (intToString (n - 1))
        st.local_ttl =
        .ok { st.local_cache with
          cache := alInsert st.local_cache.cache key (jsonEncodeString (intToString (n - 1))) } := by
      simp [LocalCache.set_ex, encString]
    refine ⟨{ st with
        local_cache := { st.local_cache with
          cache := alInsert st.local_cache.cache key (jsonEncodeString (intToString (n - 1))) },
        redis_cache := some { redis with
          store := alInsert redis.store key (intToString (n - 1)) } }, ?_, ?_⟩
    · simp [MultiLevelCache.decr, hr, hdec1, hmirror1]
    · exact alLookup_alInsert_self _ _ _
  · intro e hr he
    simp [MultiLevelCache.incr, hr, he]
  · intro e hr he
    simp [MultiLevelCache.decr, hr, he]

/-- Witness for C3: two increments on a fresh shared counter through a
reachable empty remote return 1 then 2, with the local tier seeded with
the stale value `"40"` beforehand. -/
theorem multi_incr_remote_authority_witness :
    ∃ st1 r1 st2,
      MultiLevelCache.incr ⟨⟨[("k", "40")], []⟩, some ⟨[], true⟩, 300, false⟩ "k" =
        .ok (0 + 1, st1) ∧
      st1.redis_cache = some r1 ∧
      remoteCounterVal r1 "k" = some (0 + 1) ∧
      alLookup st1.local_cache.cache "k" =
        some (jsonEncodeString (intToString (0 + 1))) ∧
      MultiLevelCache.incr st1 "k" = .ok (0 + 2, st2) ∧
      (0 : Int) + 1 < 0 + 2 :=
  (multi_incr_remote_authority ⟨⟨[("k", "40")], []⟩, some ⟨[], true⟩, 300, false⟩
      ⟨[], true⟩ "k").1 0 rfl rfl rfl (by norm_num) (by norm_num)

/-- C9: the value `MultiLevelCache::incr` mirrors into the local tier
is `serde_json::to_vec(&v.to_string())` — the JSON-quoted text, whose
first and last bytes are `"` — not the bare decimal rendering, so a
later local-side `incr`/`decr` of the same key (e.g. once the remote
tier starts failing and the call falls back to the local counter)
fails with a `Deserialization` error instead of continuing the count. -/
theorem multi_incr_mirror_poisons_local (st : MultiState) (redis : RemoteState)
    (key : String) (n : Int)
    (hr : st.redis_cache = some redis) (hup : redis.reachable = true)
    (hn : remoteCounterVal redis key = some n)
    (hlo : -(2 ^ 63) ≤ n + 1) (hhi : n + 1 ≤ 2 ^ 63 - 1) :
    ∃ st1, MultiLevelCache.incr st key = .ok (n + 1, st1) ∧
      alLookup st1.local_cache.cache key =
        some (jsonEncodeString (intToString (n + 1))) ∧
      (jsonEncodeString (intToString (n + 1))).data.head? = some '"' ∧
      (jsonEncodeString (intToString (n + 1))).data.getLast? = some '"' ∧
      LocalCache.incr st1.local_cache key =
        .error (.deserialization "invalid digit found in string") ∧
      LocalCache.decr st1.local_cache key =
        .error (.deserialization "invalid digit found in string") ∧
      (∀ rdown : RemoteState, rdown.reachable = false →
        MultiLevelCache.incr { st1 with redis_cache := some rdown } key =
          .error (.deserialization "invalid digit found in string")) := by
  have hinc1 := redis_incr_counter redis key n hup hn (by omega)
  have hmirror1 : LocalCache.set_ex encString st.local_cache key (intToString (n + 1))
      st.local_ttl =
      .ok { st.local_cache with
        cache := alInsert st.local_cache.cache key (jsonEncodeString (intToString (n + 1))) } := by
    simp [LocalCache.set_ex, encString]
  have hlook : alLookup
      (alInsert st.local_cache.cache key (jsonEncodeString (intToString (n + 1)))) key =
      some (jsonEncodeString (intToString (n + 1))) := alLookup_alInsert_self _ _ _
  have hparse : parseI64 (jsonEncodeString (intToString (n + 1))) = none :=
    parseI64Core_jsonEncodeString true (intToString (n + 1))
  have hlocalincr : LocalCache.incr
      { st.local_cache with
        cache := alInsert st.local_cache.cache key (jsonEncodeString (intToString (n + 1))) }
      key = .error (.deserialization "invalid digit found in string") := by
    simp [LocalCache.incr, hlook, hparse]
  have hlocaldecr : LocalCache.decr
      { st.local_cache with
        cache := alInsert st.local_cache.cache key (jsonEncodeString (intToString (n + 1))) }
      key = .error (.deserialization "invalid digit found in string") := by
    simp [LocalCache.decr, hlook, hparse]
  refine ⟨{ st with
      local_cache := { st.local_cache with
        cache := alInsert st.local_cache.cache key (jsonEncodeString (intToString (n + 1))) },
      redis_cache := some { redis with
        store := alInsert redis.store key (intToString (n + 1)) } },
    ?_, hlook, ?_, ?_, hlocalincr, hlocaldecr, ?_⟩
  · simp [MultiLevelCache.incr, hr, hinc1, hmirror1]
  · simp [jsonEncodeString]
  · show ('"' :: (List.flatten ((intToString (n + 1)).data.map jsonEscapeChar) ++ ['"'])).getLast?
        = some '"'
    rw [show ('"' :: (List.flatten ((intToString (n + 1)).data.map jsonEscapeChar) ++ ['"']))
          = ('"' :: List.flatten ((intToString (n + 1)).data.map jsonEscapeChar)) ++ ['"'] by
        simp]
    exact List.getLast?_concat _
  · intro rdown hdown
    have hre : RedisCache.incr rdown key = .error RedisCache.ioError := by
      simp [RedisCache.incr, hdown]
    simp [MultiLevelCache.incr, hre, MultiLevelCache.incrLocalFallback, hlocalincr]

/-- Witness for C9: a first increment through a reachable empty remote
mirrors `"1"` as the three bytes `"1"` (quoted) into the local tier,
poisoning later local-side counter operations on that key. -/
theorem multi_incr_mirror_poisons_local_witness :
    ∃ st1, MultiLevelCache.incr ⟨LocalState.empty, some ⟨[], true⟩, 300, false⟩ "k" =
        .ok (0 + 1, st1) ∧
      alLookup st1.local_cache.cache "k" =
        some (jsonEncodeString (intToString (0 + 1))) ∧
      (jsonEncodeString (intToString (0 + 1))).data.head? = some '"' ∧
      (jsonEncodeString (intToString (0 + 1))).data.getLast? = some '"' ∧
      LocalCache.incr st1.local_cache "k" =
        .error (.deserialization "invalid digit found in string") ∧
      LocalCache.decr st1.local_cache "k" =
        .error (.deserialization "invalid digit found in string") ∧
      (∀ rdown : RemoteState, rdown.reachable = false →
        MultiLevelCache.incr { st1 with redis_cache := some rdown } "k" =
          .error (.deserialization "invalid digit found in string")) :=
  multi_incr_mirror_poisons_local ⟨LocalState.empty, some ⟨[], true⟩, 300, false⟩
    ⟨[], true⟩ "k" 0 rfl rfl rfl (by norm_num) (by norm_num)

/-- C10: `LocalCache::keys` panics (modelled as `none`) on any pattern
the regex compile rejects — including the common glob pattern `"*"`,
for every cache state — is total on patterns that compile as regexes,
and matches keys by unanchored regex search rather than shell-glob
semantics: the pattern `"ab"` selects the key `"xaby"` and the pattern
`"a"` selects the key `"ab"`, neither of which a glob match would
select. -/
theorem local_keys_regex_semantics :
    (∀ st : LocalState, LocalCache.keys st "*" = none) ∧
    (∀ (st : LocalState) (pattern : String),
        (regexCompile pattern.data).isSome = true →
        (LocalCache.keys st pattern).isSome = true) ∧
    LocalCache.keys ⟨[("xaby", "1")], []⟩ "ab" = some ["xaby"] ∧
    LocalCache.keys ⟨[("ab", "1")], []⟩ "a" = some ["ab"] := by
  refine ⟨?_, ?_, ?_, ?_⟩
  · intro st
    have h : regexCompile "*".data = none := by decide
    simp [LocalCache.keys, h]
  · intro st pattern h
    unfold LocalCache.keys
    cases hc : regexCompile pattern.data with
    | none => rw [hc] at h; exact absurd h (by simp)
    | some ast => simp
  · simp [LocalCache.keys, regexCompile, regexLitChar, reIsMatch, reMatchFront, atomMatch]
  · simp [LocalCache.keys, regexCompile, regexLitChar, reIsMatch, reMatchFront, atomMatch]

/-- Witness for C10: a literal single-character pattern compiles, so
`keys` returns normally on it. -/
theorem local_keys_regex_semantics_witness :
    (LocalCache.keys LocalState.empty "a").isSome = true :=
  local_keys_regex_semantics.2.1 LocalState.empty "a" (by decide)

end RuoYi
